import Mathlib

/-!
Shallow embedding of the batching scheduler of `src/amun/common/decoder_main.cpp`
and the device matrix `src/amun/gpu/mblas/matrix.h` of the amunmt repository,
with proofs of the specification's claims about them.
-/

/-! ## Sentences and the two-level batching scheduler

`decoder_main.cpp` reads lines from the input stream, wraps each in a
`Sentence` carrying the 0-based `lineNum` assigned in arrival order, and
accumulates them in a maxi-batch.  Whenever the accumulator size reaches
`maxiSize` it is sorted by length and sliced into mini-batches of at most
`miniSize` sentences, each enqueued on the thread pool; at end of input the
non-empty remainder is flushed the same way.

A sentence's payload only matters through its token length here, so a raw
input line is modelled by its length (a `Nat`).
-/

/-- A sentence: the 0-based input index (`lineNum` in `decoder_main.cpp`)
and its token length. -/
structure Sentence where
  lineNum : Nat
  len : Nat
deriving DecidableEq, Repr

/-- Modelled from the spec: `Sentences::SortByLength` is declared in
`common/sentences.h`, which is not under src/.  Spec §3: "stably reorder all
members by token length" (§8's scenario shows ascending order). -/
def sortByLength (l : List Sentence) : List Sentence :=
  List.insertionSort (fun a b => a.len ≤ b.len) l

/-- Modelled from the spec: `Sentences::NextMiniBatch(n)` is not under src/.
Spec §3: "remove and return up to `n` elements from the front".  This is the
body of the `while (maxiBatch->size())` loop of `decoder_main.cpp`: it
returns the successive mini-batches sliced from the front of `l`.
When `miniSize = 0` the C++ loop never terminates; the model's fuel runs
out instead in that (excluded-by-configuration) case.  The fuel argument is
only a structural-termination device: `l.length` steps always suffice when
`miniSize > 0`, since each slice removes at least one sentence. -/
def nextMiniBatchesGo (miniSize : Nat) : Nat → List Sentence → List (List Sentence)
  | _, [] => []
  | 0, _ :: _ => []
  | fuel + 1, x :: xs => (x :: xs).take miniSize :: nextMiniBatchesGo miniSize fuel ((x :: xs).drop miniSize)

def nextMiniBatches (miniSize : Nat) (l : List Sentence) : List (List Sentence) :=
  nextMiniBatchesGo miniSize l.length l

/-- The input-reading loop of `decoder_main.cpp` (lines 36–63).  `input` is
the remaining stream (one length per line), `lineNum` the next index to
assign, `maxiBatch` the current accumulator.  Returns the mini-batches
enqueued from inside the reading loop (first component) and those enqueued
by the end-of-input flush (second component), in enqueue order. -/
def mainLoop (miniSize maxiSize : Nat) :
    List Nat → Nat → List Sentence → List (List Sentence) × List (List Sentence)
  | [], _, maxiBatch =>
      ([], if maxiBatch.length ≠ 0 then nextMiniBatches miniSize (sortByLength maxiBatch) else [])
  | line :: rest, lineNum, maxiBatch =>
      let mb := maxiBatch ++ [Sentence.mk lineNum line]
      if maxiSize ≤ mb.length then
        let out := mainLoop miniSize maxiSize rest (lineNum + 1) []
        (nextMiniBatches miniSize (sortByLength mb) ++ out.1, out.2)
      else
        mainLoop miniSize maxiSize rest (lineNum + 1) mb

/-- All mini-batches handed to the worker pool over a whole run starting
from an empty accumulator and `lineNum = 0`, in enqueue order. -/
def emittedBatches (miniSize maxiSize : Nat) (input : List Nat) : List (List Sentence) :=
  (mainLoop miniSize maxiSize input 0 []).1 ++ (mainLoop miniSize maxiSize input 0 []).2

/-- The sentences the loop builds from `input`, with indices `k, k+1, …`
assigned in arrival order. -/
def sentencesFrom (k : Nat) : List Nat → List Sentence
  | [] => []
  | line :: rest => Sentence.mk k line :: sentencesFrom (k + 1) rest

/-- Modelled from the spec: `God::Init`/`God::Get` configuration handling
(`common/god.h`) is not under src/.  Spec §7: a configuration error (zero or
missing batch-size settings) is detected at startup and is fatal before any
batching begins. -/
inductive ConfigError where
  | configError
deriving DecidableEq, Repr

/-- Modelled from the spec: startup configuration validation, not under
src/.  Returns the `(miniSize, maxiSize)` pair on success. -/
def godInit (miniBatch maxiBatch : Option Nat) : Except ConfigError (Nat × Nat) :=
  match miniBatch, maxiBatch with
  | some m, some M => if m = 0 ∨ M = 0 then .error .configError else .ok (m, M)
  | _, _ => .error .configError

/-- `main` of `decoder_main.cpp`: validate configuration at startup (the
spec-modelled part), then run the reading loop. -/
def decoderMain (miniBatch maxiBatch : Option Nat) (input : List Nat) :
    Except ConfigError (List (List Sentence) × List (List Sentence)) :=
  match godInit miniBatch maxiBatch with
  | .error e => .error e
  | .ok (m, M) => .ok (mainLoop m M input 0 [])

-- sanity checks (kept as `example`s: they are proofs, not commands)
example : sortByLength [⟨0, 5⟩, ⟨1, 1⟩, ⟨2, 3⟩, ⟨3, 2⟩] =
    [⟨1, 1⟩, ⟨3, 2⟩, ⟨2, 3⟩, ⟨0, 5⟩] := by decide

example : nextMiniBatches 2 [⟨0, 1⟩, ⟨1, 2⟩, ⟨2, 3⟩] =
    [[⟨0, 1⟩, ⟨1, 2⟩], [⟨2, 3⟩]] := by decide

example : (mainLoop 2 4 [5, 1, 3, 2] 0 []).1 =
    [[⟨1, 1⟩, ⟨3, 2⟩], [⟨2, 3⟩, ⟨0, 5⟩]] := by decide

example : mainLoop 2 5 [5, 1, 3, 2, 4] 0 [] =
    ([[⟨1, 1⟩, ⟨3, 2⟩], [⟨2, 3⟩, ⟨4, 4⟩], [⟨0, 5⟩]], []) := by decide

/-! ## The device matrix `TMatrix<T>` of `gpu/mblas/matrix.h`

A `TMatrix` owns one contiguous device allocation of `arrSize_` elements
(the capacity) and views it through the logical shape
`rows_ × cols_ × beam_ × batches_`.  Device memory is modelled as a list of
cells, a cell being `Option α` with `none` standing for an uninitialized
(garbage) element; `data = none` models the null pointer.  `cudaMalloc` is
modelled as always succeeding and returning a fresh region of uninitialized
cells (allocation failure is an environmental device fault, outside the
model); the element count follows the source's `cols * rows * beam *
batches` multiplication order.  `size_t` arithmetic stays in `Nat` (no
64-bit overflow is reachable in the claims below); the one machine-width
effect that matters, the `(int)` cast in `operator bool`, is modelled
explicitly with `% 2^32`.
-/

inductive AmunError where
  | deviceFault
  | capacityViolation
deriving DecidableEq, Repr

structure TMatrix (α : Type) where
  rows : Nat
  cols : Nat
  beam : Nat
  batches : Nat
  arrSize : Nat
  data : Option (List (Option α))
deriving DecidableEq

/-- `size()`: the logical element count `cols_ * rows_ * beam_ * batches_`. -/
def TMatrix.size {α : Type} (m : TMatrix α) : Nat :=
  m.cols * m.rows * m.beam * m.batches

/-- The default constructor: all fields zero, null data pointer. -/
def TMatrix.mkDefault {α : Type} : TMatrix α :=
  ⟨0, 0, 0, 0, 0, none⟩

/-- `cudaMemcpy(dst, src, n * sizeof(T))`: the first `n` cells of `src`
overwrite the first `n` cells of `dst`. -/
def memcpy {α : Type} (dst src : List (Option α)) (n : Nat) : List (Option α) :=
  src.take n ++ dst.drop n

/-- The cells of the allocation (empty list when the pointer is null). -/
def TMatrix.contents {α : Type} (m : TMatrix α) : List (Option α) :=
  m.data.getD []

/-- The sized constructor `TMatrix(rows, cols, beam, batches, zero)`
(the C++ `zero` argument defaults to `false`).  Note the member-init list
sets `beam_(1), batches_(1)` and then `arrSize_(size())`, so the capacity is
`cols * rows * 1 * 1` whatever `beam` and `batches` were passed; `zero`
triggers a `cudaMemset` of the fresh allocation. -/
def TMatrix.sizedCtor {α : Type} [Zero α] (rows cols _beam _batches : Nat) (zero : Bool) :
    TMatrix α :=
  let arrSize := cols * rows * 1 * 1
  { rows := rows, cols := cols, beam := 1, batches := 1, arrSize := arrSize,
    data := some (if zero then List.replicate arrSize (some 0) else List.replicate arrSize none) }

/-- The copy constructor `TMatrix(const TMatrix&)`: copies all five scalar
fields (including `arrSize_`), `cudaMalloc`s `arrSize_` elements and
`cudaMemcpyAsync`s `arrSize_` elements device-to-device from the source. -/
def TMatrix.copy {α : Type} (m : TMatrix α) : TMatrix α :=
  { rows := m.rows, cols := m.cols, beam := m.beam, batches := m.batches,
    arrSize := m.arrSize,
    data := some (memcpy (List.replicate m.arrSize none) m.contents m.arrSize) }

/-- `swap`: exchanges every field of the two objects. -/
def TMatrix.swap {α : Type} (a b : TMatrix α) : TMatrix α × TMatrix α :=
  (b, a)

/-- The move constructor `TMatrix(TMatrix&&)`: default-construct, then swap
with the source.  Result: (the constructed object, the source afterwards). -/
def TMatrix.moveCtor {α : Type} (m : TMatrix α) : TMatrix α × TMatrix α :=
  TMatrix.swap TMatrix.mkDefault m

/-- `Resize(rows, cols, beam, batches)` (the C++ `beam` and `batches`
arguments default to 1).  With a live allocation: grow (fresh allocation of
`newSize`, copy of the old logical `size()` prefix, free) when
`newSize > arrSize_`; otherwise an implicit `Clear()` when `rows == 0 ||
cols == 0`; otherwise keep the allocation.  With a null pointer: allocate
`newSize` elements.  In every case the four shape fields are then assigned
the requested values. -/
def TMatrix.Resize {α : Type} (m : TMatrix α) (rows cols beam batches : Nat) : TMatrix α :=
  let newSize := cols * rows * beam * batches
  match m.data with
  | some d =>
      if m.arrSize < newSize then
        { rows := rows, cols := cols, beam := beam, batches := batches,
          arrSize := newSize,
          data := some (memcpy (List.replicate newSize none) d m.size) }
      else if rows = 0 ∨ cols = 0 then
        { rows := rows, cols := cols, beam := beam, batches := batches,
          arrSize := 0, data := none }
      else
        { m with rows := rows, cols := cols, beam := beam, batches := batches }
  | none =>
      { rows := rows, cols := cols, beam := beam, batches := batches,
        arrSize := newSize, data := some (List.replicate newSize none) }

/-- `Reshape(rows, cols, beam, batches)`: throws a capacity-violation
(`amunmt_UTIL_THROW_IF2`, distinct from the `HANDLE_ERROR` device fault)
when `newSize > arrSize_`, leaving the object untouched; otherwise assigns
the four shape fields, touching neither capacity nor data. -/
def TMatrix.Reshape {α : Type} (m : TMatrix α) (rows cols beam batches : Nat) :
    Except AmunError (TMatrix α) :=
  let newSize := cols * rows * beam * batches
  if m.arrSize < newSize then .error .capacityViolation
  else .ok { m with rows := rows, cols := cols, beam := beam, batches := batches }

/-- `Reshape2D()`: folds beam and batches into rows. -/
def TMatrix.Reshape2D {α : Type} (m : TMatrix α) : TMatrix α :=
  { m with rows := m.rows * m.beam * m.batches, beam := 1, batches := 1 }

/-- `Clear()`: frees the allocation and zeroes every field. -/
def TMatrix.Clear {α : Type} (_m : TMatrix α) : TMatrix α :=
  ⟨0, 0, 0, 0, 0, none⟩

/-- `operator bool()`: the source computes `(int)size() != 0`.  `size()` is
a 64-bit `size_t`; the conversion to the 32-bit `int` wraps modulo `2^32`
(two's complement; the converted value is zero exactly when
`size() % 2^32 == 0`). -/
def TMatrix.toBool {α : Type} (m : TMatrix α) : Bool :=
  m.size % 4294967296 != 0

/-- Allocation well-formedness: the allocation holds exactly `arrSize_`
cells (for a null pointer, `contents` is empty, so this forces
`arrSize_ = 0`). -/
def TMatrix.wf {α : Type} (m : TMatrix α) : Prop :=
  m.contents.length = m.arrSize

/-- The matrices reachable from the constructors by the public operations
(`Reshape` only through its non-throwing outcome). -/
inductive TMatrix.Reachable {α : Type} [Zero α] : TMatrix α → Prop where
  | mkDefault : TMatrix.Reachable (TMatrix.mkDefault)
  | sizedCtor (r c b bt : Nat) (z : Bool) : TMatrix.Reachable (TMatrix.sizedCtor r c b bt z)
  | copy {m : TMatrix α} : TMatrix.Reachable m → TMatrix.Reachable m.copy
  | moveFst {m : TMatrix α} : TMatrix.Reachable m → TMatrix.Reachable m.moveCtor.1
  | moveSnd {m : TMatrix α} : TMatrix.Reachable m → TMatrix.Reachable m.moveCtor.2
  | swapFst {a b : TMatrix α} : TMatrix.Reachable a → TMatrix.Reachable b →
      TMatrix.Reachable (TMatrix.swap a b).1
  | swapSnd {a b : TMatrix α} : TMatrix.Reachable a → TMatrix.Reachable b →
      TMatrix.Reachable (TMatrix.swap a b).2
  | resize {m : TMatrix α} (r c b bt : Nat) : TMatrix.Reachable m →
      TMatrix.Reachable (m.Resize r c b bt)
  | reshape {m m' : TMatrix α} (r c b bt : Nat) : TMatrix.Reachable m →
      m.Reshape r c b bt = .ok m' → TMatrix.Reachable m'
  | reshape2D {m : TMatrix α} : TMatrix.Reachable m → TMatrix.Reachable m.Reshape2D
  | clear {m : TMatrix α} : TMatrix.Reachable m → TMatrix.Reachable m.Clear

-- sanity checks on the matrix model
example : (TMatrix.sizedCtor 2 3 7 9 false : TMatrix Int).arrSize = 6 := by decide
example : ((TMatrix.mkDefault : TMatrix Int).Resize 2 3 1 1).arrSize = 6 := by decide
example : (((TMatrix.mkDefault : TMatrix Int).Resize 2 3 1 1).Resize 0 5 1 1) =
    ⟨0, 5, 1, 1, 0, none⟩ := by decide
example : (((TMatrix.mkDefault : TMatrix Int).Resize 2 3 1 1).Resize 1 2 1 1).arrSize = 6 := by
  decide
example : ((TMatrix.mkDefault : TMatrix Int).Reshape 1 1 1 1) = .error .capacityViolation := rfl

/-! ## Scheduler lemmas -/

theorem nextMiniBatchesGo_flatten {m : Nat} (hm : 0 < m) :
    ∀ (fuel : Nat) (l : List Sentence), l.length ≤ fuel →
      (nextMiniBatchesGo m fuel l).flatten = l := by
  intro fuel
  induction fuel with
  | zero =>
      intro l hl
      have hnil : l = [] := List.eq_nil_of_length_eq_zero (Nat.le_zero.mp hl)
      subst hnil
      simp [nextMiniBatchesGo]
  | succ fuel ih =>
      intro l hl
      cases l with
      | nil => simp [nextMiniBatchesGo]
      | cons x xs =>
          have hlen : ((x :: xs).drop m).length ≤ fuel := by
            simp only [List.length_drop, List.length_cons]
            simp only [List.length_cons] at hl
            omega
          simp only [nextMiniBatchesGo, List.flatten_cons, ih _ hlen]
          exact List.take_append_drop m (x :: xs)

theorem nextMiniBatches_flatten {m : Nat} (hm : 0 < m) (l : List Sentence) :
    (nextMiniBatches m l).flatten = l :=
  nextMiniBatchesGo_flatten hm l.length l (Nat.le_refl _)

theorem sortByLength_perm (l : List Sentence) : (sortByLength l).Perm l :=
  List.perm_insertionSort _ l

theorem mainLoop_flatten_perm {m : Nat} (M : Nat) (hm : 0 < m) :
    ∀ (input : List Nat) (k : Nat) (acc : List Sentence),
      (((mainLoop m M input k acc).1 ++ (mainLoop m M input k acc).2).flatten).Perm
        (acc ++ sentencesFrom k input) := by
  intro input
  induction input with
  | nil =>
      intro k acc
      by_cases h : acc.length ≠ 0
      · simp only [mainLoop, List.nil_append, sentencesFrom, List.append_nil]
        rw [if_pos h, nextMiniBatches_flatten hm]
        exact sortByLength_perm acc
      · have hnil : acc = [] := List.eq_nil_of_length_eq_zero (by omega)
        subst hnil
        simp [mainLoop, sentencesFrom]
  | cons line rest ih =>
      intro k acc
      simp only [mainLoop]
      by_cases h : M ≤ (acc ++ [Sentence.mk k line]).length
      · rw [if_pos h, List.append_assoc, List.flatten_append, nextMiniBatches_flatten hm]
        have h2 := ih (k + 1) []
        simp only [List.nil_append] at h2
        have h3 := (sortByLength_perm (acc ++ [Sentence.mk k line])).append h2
        refine h3.trans ?_
        simp [sentencesFrom, List.append_assoc]
      · rw [if_neg h]
        have h2 := ih (k + 1) (acc ++ [Sentence.mk k line])
        refine h2.trans ?_
        simp [sentencesFrom, List.append_assoc]

/-! ## Device-matrix lemmas -/

theorem TMatrix.Resize_null {α : Type} (m : TMatrix α) (r c b bt : Nat)
    (hd : m.data = none) :
    m.Resize r c b bt =
      ⟨r, c, b, bt, c * r * b * bt, some (List.replicate (c * r * b * bt) none)⟩ := by
  unfold TMatrix.Resize
  rw [hd]

theorem TMatrix.Resize_grow {α : Type} (m : TMatrix α) {d : List (Option α)} (r c b bt : Nat)
    (hd : m.data = some d) (hg : m.arrSize < c * r * b * bt) :
    m.Resize r c b bt =
      ⟨r, c, b, bt, c * r * b * bt,
        some (memcpy (List.replicate (c * r * b * bt) none) d m.size)⟩ := by
  unfold TMatrix.Resize
  rw [hd]
  simp only [if_pos hg]

theorem TMatrix.Resize_zeroDim {α : Type} (m : TMatrix α) {d : List (Option α)} (r c b bt : Nat)
    (hd : m.data = some d) (hg : ¬ m.arrSize < c * r * b * bt) (hz : r = 0 ∨ c = 0) :
    m.Resize r c b bt = ⟨r, c, b, bt, 0, none⟩ := by
  unfold TMatrix.Resize
  rw [hd]
  simp only [if_neg hg, if_pos hz]

theorem TMatrix.Resize_keep {α : Type} (m : TMatrix α) {d : List (Option α)} (r c b bt : Nat)
    (hd : m.data = some d) (hg : ¬ m.arrSize < c * r * b * bt) (hz : ¬ (r = 0 ∨ c = 0)) :
    m.Resize r c b bt = { m with rows := r, cols := c, beam := b, batches := bt } := by
  unfold TMatrix.Resize
  rw [hd]
  simp only [if_neg hg, if_neg hz]

theorem TMatrix.reachable_inv {α : Type} [Zero α] {m : TMatrix α} (h : m.Reachable) :
    m.size ≤ m.arrSize ∧ m.wf := by
  induction h with
  | mkDefault =>
      exact ⟨Nat.le_refl 0, rfl⟩
  | sizedCtor r c b bt z =>
      constructor
      · simp [TMatrix.size, TMatrix.sizedCtor]
      · cases z <;> simp [TMatrix.wf, TMatrix.contents, TMatrix.sizedCtor]
  | copy _ ih =>
      obtain ⟨hle, hwf⟩ := ih
      constructor
      · simpa [TMatrix.size, TMatrix.copy] using hle
      · simp only [TMatrix.wf, TMatrix.contents, TMatrix.copy, memcpy] at hwf ⊢
        simp [hwf]
  | moveFst _ ih =>
      simpa [TMatrix.moveCtor, TMatrix.swap] using ih
  | moveSnd _ _ =>
      exact ⟨Nat.le_refl 0, rfl⟩
  | swapFst _ _ _ ih2 =>
      simpa [TMatrix.swap] using ih2
  | swapSnd _ _ ih1 _ =>
      simpa [TMatrix.swap] using ih1
  | @resize m r c b bt _ ih =>
      obtain ⟨hle, hwf⟩ := ih
      rcases hd : m.data with _ | d
      · rw [TMatrix.Resize_null m r c b bt hd]
        constructor
        · simp [TMatrix.size]
        · simp [TMatrix.wf, TMatrix.contents]
      · have hdl : d.length = m.arrSize := by
          simpa [TMatrix.wf, TMatrix.contents, hd] using hwf
        by_cases hg : m.arrSize < c * r * b * bt
        · rw [TMatrix.Resize_grow m r c b bt hd hg]
          constructor
          · simp [TMatrix.size]
          · simp only [TMatrix.wf, TMatrix.contents, Option.getD_some, memcpy,
              List.length_append, List.length_take, List.length_drop, List.length_replicate]
            omega
        · by_cases hz : r = 0 ∨ c = 0
          · rw [TMatrix.Resize_zeroDim m r c b bt hd hg hz]
            constructor
            · rcases hz with hz | hz <;> simp [TMatrix.size, hz]
            · simp [TMatrix.wf, TMatrix.contents]
          · rw [TMatrix.Resize_keep m r c b bt hd hg hz]
            constructor
            · simp only [TMatrix.size]
              omega
            · simpa [TMatrix.wf, TMatrix.contents] using hwf
  | @reshape m m' r c b bt _ heq ih =>
      obtain ⟨hle, hwf⟩ := ih
      by_cases hg : m.arrSize < c * r * b * bt
      · simp [TMatrix.Reshape, hg] at heq
      · simp only [TMatrix.Reshape, if_neg hg] at heq
        obtain rfl := (Except.ok.injEq _ _).mp heq
        constructor
        · simp only [TMatrix.size]
          omega
        · simpa [TMatrix.wf, TMatrix.contents] using hwf
  | reshape2D _ ih =>
      obtain ⟨hle, hwf⟩ := ih
      rename_i m _
      constructor
      · have hsz : m.Reshape2D.size = m.size := by
          simp only [TMatrix.size, TMatrix.Reshape2D]
          ring
        rw [hsz]
        exact hle
      · simpa [TMatrix.wf, TMatrix.contents, TMatrix.Reshape2D] using hwf
  | clear _ _ =>
      exact ⟨Nat.le_refl 0, rfl⟩

/-! ## Claims -/

/-- Claim C1: for every finite input stream processed with `miniSize > 0`
and `maxiSize > 0`, the multiset of sentences across all mini-batches
handed to the worker pool is exactly the input sentences, each exactly
once, each carrying the 0-based index assigned in arrival order. -/
theorem claim1_scheduler_exact_cover (miniSize maxiSize : Nat)
    (hm : 0 < miniSize) (_hM : 0 < maxiSize) (input : List Nat) :
    ((emittedBatches miniSize maxiSize input).flatten).Perm (sentencesFrom 0 input) := by
  have h := mainLoop_flatten_perm maxiSize hm input 0 []
  simpa [emittedBatches] using h

theorem claim1_scheduler_exact_cover_witness :
    ((emittedBatches 2 4 [5, 1, 3, 2]).flatten).Perm (sentencesFrom 0 [5, 1, 3, 2]) :=
  claim1_scheduler_exact_cover 2 4 (by decide) (by decide) [5, 1, 3, 2]

/-- Claim C2: every `TMatrix` reachable by the constructors (default,
sized, copy, move), `Resize`, `Reshape`, `Reshape2D`, `Clear` and `swap`
satisfies `arrSize_ ≥ rows_ * cols_ * beam_ * batches_`. -/
theorem claim2_capacity_invariant {α : Type} [Zero α] (m : TMatrix α)
    (h : m.Reachable) :
    m.rows * m.cols * m.beam * m.batches ≤ m.arrSize := by
  have hinv := (TMatrix.reachable_inv h).1
  simp only [TMatrix.size] at hinv
  calc m.rows * m.cols * m.beam * m.batches
      = m.cols * m.rows * m.beam * m.batches := by ring
    _ ≤ m.arrSize := hinv

theorem claim2_capacity_invariant_witness :
    (TMatrix.sizedCtor 2 3 7 9 false : TMatrix Int).rows *
        (TMatrix.sizedCtor 2 3 7 9 false : TMatrix Int).cols *
        (TMatrix.sizedCtor 2 3 7 9 false : TMatrix Int).beam *
        (TMatrix.sizedCtor 2 3 7 9 false : TMatrix Int).batches ≤
      (TMatrix.sizedCtor 2 3 7 9 false : TMatrix Int).arrSize :=
  claim2_capacity_invariant _ (TMatrix.Reachable.sizedCtor 2 3 7 9 false)

/-- Claim C3 counterexample: `Resize(2,3)` followed by `Resize(0,5)` leaves
capacity 0 with shape `(0, 5, 1, 1)` — the `Clear()` in the zero-dimension
branch is followed by the unconditional shape-field assignments — so
`capacity = 0 ↔ all-zero shape` fails, and the shape is not reset to
all-zero. -/
theorem claim3_counterexample :
    ¬ (let m := ((TMatrix.mkDefault : TMatrix Int).Resize 2 3 1 1).Resize 0 5 1 1
       m.arrSize = 0 ↔ (m.rows = 0 ∧ m.cols = 0 ∧ m.beam = 0 ∧ m.batches = 0)) := by
  decide

/-- Claim C3 (amended): after any reachable sequence of operations, zero
capacity implies a zero logical element count; and a `Resize` with
`rows = 0` or `cols = 0` on a buffer with a live allocation releases the
memory entirely (capacity 0, null data) but sets the four shape fields to
the requested values, not to all-zero. -/
theorem claim3_amended {α : Type} [Zero α] (m : TMatrix α) (h : m.Reachable)
    (r c b bt : Nat) :
    (m.arrSize = 0 → m.size = 0) ∧
      (m.data ≠ none → (r = 0 ∨ c = 0) →
        m.Resize r c b bt = ⟨r, c, b, bt, 0, none⟩) := by
  constructor
  · intro h0
    have hinv := (TMatrix.reachable_inv h).1
    omega
  · intro hdn hz
    rcases hd : m.data with _ | d
    · exact absurd hd hdn
    · refine TMatrix.Resize_zeroDim m r c b bt hd ?_ hz
      rcases hz with hz | hz <;> simp [hz]

theorem claim3_amended_witness :
    (let m := (TMatrix.mkDefault : TMatrix Int).Resize 2 3 1 1
     (m.arrSize = 0 → m.size = 0) ∧
       (m.data ≠ none → ((0 : Nat) = 0 ∨ (5 : Nat) = 0) →
         m.Resize 0 5 1 1 = ⟨0, 5, 1, 1, 0, none⟩)) :=
  claim3_amended _ (TMatrix.Reachable.resize 2 3 1 1 TMatrix.Reachable.mkDefault) 0 5 1 1

/-- Claim C4: `Reshape` to an element count above the current capacity
fails with the capacity-violation error (a different constructor from the
device fault) and, since the check throws before any assignment, leaves the
object unchanged; `Reshape` to an element count within capacity succeeds,
sets the shape to the requested dimensions, and touches neither the
capacity nor the allocation. -/
theorem claim4_reshape (α : Type) (m : TMatrix α) (r c b bt : Nat) :
    (m.arrSize < c * r * b * bt →
        m.Reshape r c b bt = .error .capacityViolation) ∧
      (c * r * b * bt ≤ m.arrSize →
        m.Reshape r c b bt =
          .ok { m with rows := r, cols := c, beam := b, batches := bt }) ∧
      AmunError.capacityViolation ≠ AmunError.deviceFault := by
  refine ⟨?_, ?_, by decide⟩
  · intro hg
    simp only [TMatrix.Reshape]
    rw [if_pos hg]
  · intro hle
    simp only [TMatrix.Reshape]
    rw [if_neg (Nat.not_lt.mpr hle)]

theorem claim4_reshape_witness :
    (TMatrix.mkDefault : TMatrix Int).Reshape 1 1 1 1 = .error .capacityViolation ∧
      (TMatrix.sizedCtor 2 3 1 1 false : TMatrix Int).Reshape 3 2 1 1 =
        .ok { (TMatrix.sizedCtor 2 3 1 1 false : TMatrix Int) with
                rows := 3, cols := 2, beam := 1, batches := 1 } :=
  ⟨(claim4_reshape Int TMatrix.mkDefault 1 1 1 1).1 (by decide),
   (claim4_reshape Int (TMatrix.sizedCtor 2 3 1 1 false) 3 2 1 1).2.1 (by decide)⟩

/-- Claim C5 counterexample: for a source with capacity 6 but logical
element count 2 (`Resize(2,3)` then in-place `Resize(1,2)`), the copy's
capacity is the source's capacity `arrSize_ = 6`, not the source's
`size() = 2` — the copy constructor allocates and transfers
`arrSize_ * sizeof(T)` bytes. -/
theorem claim5_counterexample :
    ¬ ((((TMatrix.mkDefault : TMatrix Int).Resize 2 3 1 1).Resize 1 2 1 1).copy.arrSize =
        (((TMatrix.mkDefault : TMatrix Int).Resize 2 3 1 1).Resize 1 2 1 1).size) := by
  decide

/-- Claim C5 (amended): copy-construction copies the logical shape and the
capacity `arrSize_` (not just `size()`), allocating a fresh region of
`arrSize_` elements and transferring `arrSize_` elements device-to-device,
so the copy has the same shape, the *source's capacity*, and identical cell
contents in its own independent allocation (mutation independence follows
from the fresh allocation, which the pure model keeps implicit). -/
theorem claim5_amended {α : Type} (m : TMatrix α) (h : m.wf) :
    m.copy.rows = m.rows ∧ m.copy.cols = m.cols ∧ m.copy.beam = m.beam ∧
      m.copy.batches = m.batches ∧ m.copy.arrSize = m.arrSize ∧
      m.copy.contents = m.contents := by
  refine ⟨rfl, rfl, rfl, rfl, rfl, ?_⟩
  simp only [TMatrix.wf] at h
  simp only [TMatrix.copy, TMatrix.contents, memcpy, Option.getD_some]
  rw [← h]
  simp [TMatrix.contents]

theorem claim5_amended_witness :
    (TMatrix.sizedCtor 2 3 1 1 false : TMatrix Int).copy.rows =
        (TMatrix.sizedCtor 2 3 1 1 false : TMatrix Int).rows ∧
      (TMatrix.sizedCtor 2 3 1 1 false : TMatrix Int).copy.cols =
        (TMatrix.sizedCtor 2 3 1 1 false : TMatrix Int).cols ∧
      (TMatrix.sizedCtor 2 3 1 1 false : TMatrix Int).copy.beam =
        (TMatrix.sizedCtor 2 3 1 1 false : TMatrix Int).beam ∧
      (TMatrix.sizedCtor 2 3 1 1 false : TMatrix Int).copy.batches =
        (TMatrix.sizedCtor 2 3 1 1 false : TMatrix Int).batches ∧
      (TMatrix.sizedCtor 2 3 1 1 false : TMatrix Int).copy.arrSize =
        (TMatrix.sizedCtor 2 3 1 1 false : TMatrix Int).arrSize ∧
      (TMatrix.sizedCtor 2 3 1 1 false : TMatrix Int).copy.contents =
        (TMatrix.sizedCtor 2 3 1 1 false : TMatrix Int).contents :=
  claim5_amended _ rfl

/-- Claim C6 counterexample: `Resize` takes no `zeroFill` argument in
`matrix.h`, and an initial allocation made by `Resize` on a zero-capacity
buffer is never zero-initialized: all six fresh cells stay uninitialized. -/
theorem claim6_counterexample :
    ((TMatrix.mkDefault : TMatrix Int).Resize 2 3 1 1).data ≠
      some (List.replicate 6 (some 0)) := by
  decide

/-- Claim C6 (amended): the zero-fill flag belongs to the sized
constructor, not to `Resize`: `TMatrix(rows, cols, beam, batches, zero)`
(`zero` defaults to `false` in the C++ signature) zero-initializes its
fresh allocation via `cudaMemset` when `zero = true`, while `Resize` on a
buffer with zero capacity (null data) allocates without any
zero-initialization. -/
theorem claim6_amended {α : Type} [Zero α] (r c b bt : Nat) :
    ((TMatrix.sizedCtor r c b bt true : TMatrix α).data =
        some (List.replicate (c * r * 1 * 1) (some 0))) ∧
      ∀ m : TMatrix α, m.data = none →
        (m.Resize r c b bt).data = some (List.replicate (c * r * b * bt) none) := by
  constructor
  · simp [TMatrix.sizedCtor]
  · intro m hd
    rw [TMatrix.Resize_null m r c b bt hd]

theorem claim6_amended_witness :
    ((TMatrix.sizedCtor 2 3 1 1 true : TMatrix Int).data =
        some (List.replicate (3 * 2 * 1 * 1) (some 0))) ∧
      ((TMatrix.mkDefault : TMatrix Int).Resize 2 3 1 1).data =
        some (List.replicate (3 * 2 * 1 * 1) none) :=
  ⟨(claim6_amended 2 3 1 1).1, (claim6_amended 2 3 1 1).2 TMatrix.mkDefault rfl⟩

theorem nextMiniBatches_len5 (l : List Sentence) (hl : l.length = 5) :
    (nextMiniBatches 2 l).map List.length = [2, 2, 1] := by
  rcases l with _ | ⟨s1, _ | ⟨s2, _ | ⟨s3, _ | ⟨s4, _ | ⟨s5, _ | ⟨s6, t⟩⟩⟩⟩⟩⟩ <;>
    simp_all [nextMiniBatches, nextMiniBatchesGo]

/-- Claim C7 counterexample: with `maxiSize = 5`, `miniSize = 2` and
exactly five input sentences, the end-of-input flush emits nothing — the
fifth `push_back` makes the accumulator reach `maxiSize`, so the
sort-and-slice cycle fires inside the reading loop, contrary to the
claim's "no full maxi-batch cycle is triggered inside the reading loop". -/
theorem claim7_counterexample :
    (mainLoop 2 5 [5, 1, 3, 2, 4] 0 []).2 = [] ∧
      (mainLoop 2 5 [5, 1, 3, 2, 4] 0 []).1 ≠ [] := by
  decide

/-- Claim C7 (amended): with `maxiSize = 5` and `miniSize = 2`, submitting
exactly five sentences triggers the full maxi-batch cycle inside the
reading loop on the fifth line: that in-loop cycle sorts the five
accumulated sentences and emits mini-batches of sizes 2, 2, 1 covering all
five, and the end-of-input flush then finds an empty accumulator and emits
nothing. -/
theorem claim7_amended (a b c d e : Nat) :
    (mainLoop 2 5 [a, b, c, d, e] 0 []).2 = [] ∧
      (mainLoop 2 5 [a, b, c, d, e] 0 []).1.map List.length = [2, 2, 1] ∧
      ((mainLoop 2 5 [a, b, c, d, e] 0 []).1.flatten).Perm
        (sentencesFrom 0 [a, b, c, d, e]) := by
  have hrun : mainLoop 2 5 [a, b, c, d, e] 0 [] =
      (nextMiniBatches 2 (sortByLength
        [⟨0, a⟩, ⟨1, b⟩, ⟨2, c⟩, ⟨3, d⟩, ⟨4, e⟩]), []) := by
    simp [mainLoop]
  have hlen : (sortByLength [⟨0, a⟩, ⟨1, b⟩, ⟨2, c⟩, ⟨3, d⟩, ⟨4, e⟩]).length = 5 := by
    rw [sortByLength, List.length_insertionSort]
    rfl
  refine ⟨by rw [hrun], ?_, ?_⟩
  · rw [hrun]
    exact nextMiniBatches_len5 _ hlen
  · rw [hrun]
    simp only [nextMiniBatches_flatten (by decide : (0 : Nat) < 2)]
    simpa [sentencesFrom] using
      sortByLength_perm [⟨0, a⟩, ⟨1, b⟩, ⟨2, c⟩, ⟨3, d⟩, ⟨4, e⟩]

/-- Claim C8 counterexample: a matrix holding `2^32` logical elements
(sized constructor with `rows = 2^32`, `cols = 1`) has a non-zero element
count, yet `operator bool` — `(int)size() != 0` — truncates the 64-bit
count to 32 bits and yields `false`. -/
theorem claim8_counterexample :
    ¬ ((TMatrix.sizedCtor 4294967296 1 1 1 false : TMatrix Int).toBool = true ↔
        (TMatrix.sizedCtor 4294967296 1 1 1 false : TMatrix Int).size ≠ 0) := by
  decide

/-- Claim C8 (amended): `operator bool` returns `true` iff
`size() mod 2^32 ≠ 0` — the `(int)` cast truncates the `size_t` element
count — so the intended "non-empty iff logical element count ≠ 0" holds
exactly for element counts below `2^32`. -/
theorem claim8_amended {α : Type} (m : TMatrix α) :
    (m.toBool = true ↔ m.size % 4294967296 ≠ 0) ∧
      (m.size < 4294967296 → (m.toBool = true ↔ m.size ≠ 0)) := by
  constructor
  · simp [TMatrix.toBool]
  · intro hlt
    simp [TMatrix.toBool, Nat.mod_eq_of_lt hlt]

theorem claim8_amended_witness :
    (TMatrix.sizedCtor 2 3 1 1 false : TMatrix Int).toBool = true ↔
      (TMatrix.sizedCtor 2 3 1 1 false : TMatrix Int).size ≠ 0 :=
  (claim8_amended _).2 (by decide)

/-- Claim C9: a zero or missing `mini-batch`/`maxi-batch` setting makes the
(spec-modelled) startup validation fail with a configuration error, so
`main` never reaches the reading loop: no sentence is submitted to the
accumulator and no work is enqueued. -/
theorem claim9_config_error (miniBatch maxiBatch : Option Nat) (input : List Nat)
    (h : miniBatch = none ∨ miniBatch = some 0 ∨ maxiBatch = none ∨ maxiBatch = some 0) :
    decoderMain miniBatch maxiBatch input = .error .configError := by
  rcases miniBatch with _ | m
  · rcases maxiBatch with _ | M <;> rfl
  · rcases maxiBatch with _ | M
    · rfl
    · have hz : m = 0 ∨ M = 0 := by
        simpa using h
      simp only [decoderMain, godInit, if_pos hz]

theorem claim9_config_error_witness :
    decoderMain (some 0) (some 5) [3, 1] = .error .configError :=
  claim9_config_error (some 0) (some 5) [3, 1] (Or.inr (Or.inl rfl))

/-- Claim C10: the sized constructor ignores its `beam` and `batches`
arguments — the member-init list sets `beam_(1), batches_(1)` before
computing `arrSize_(size())`, so the result always has `beam = 1`,
`batches = 1`, and a capacity and allocation of exactly `rows * cols`
elements, whatever `beam` and `batches` were passed. -/
theorem claim10_sizedCtor_ignores_beam (α : Type) [Zero α] (r c b bt : Nat) (z : Bool) :
    (TMatrix.sizedCtor r c b bt z : TMatrix α) = TMatrix.sizedCtor r c 1 1 z ∧
      (TMatrix.sizedCtor r c b bt z : TMatrix α).beam = 1 ∧
      (TMatrix.sizedCtor r c b bt z : TMatrix α).batches = 1 ∧
      (TMatrix.sizedCtor r c b bt z : TMatrix α).arrSize = r * c ∧
      (TMatrix.sizedCtor r c b bt z : TMatrix α).contents.length = r * c := by
  refine ⟨rfl, rfl, rfl, ?_, ?_⟩
  · show c * r * 1 * 1 = r * c
    ring
  · cases z <;>
      · show (List.replicate (c * r * 1 * 1) _).length = r * c
        simp [List.length_replicate]
        ring
